import Mathlib

/-!
# Verification of the chat `Manager` (`src/manager/index.ts`)

Shallow embedding of the multi-provider chat manager.  The `Manager` class
owns an insertion-ordered map from provider identifiers to per-provider
sessions (`ChatProviderManager` instances), a flag `isTokenInitialized`, an
optional vsls contact-provider bridge, and collaborates with a persistent
store and a secret (token) store.  JavaScript `Map` objects are modelled as
insertion-ordered association lists with unique keys; `Map.set` on a fresh
key appends, `Map.delete` removes, `Map.get` finds the entry.
-/

set_option maxHeartbeats 1000000
set_option linter.unusedVariables false

/-- A chat user (`User` in the source): identity and display name. -/
structure User where
  id : String
  name : String
deriving DecidableEq

/-- A team / workspace grouping (`Team` in the source). -/
structure Team where
  id : String
  name : String
deriving DecidableEq

/-- A channel (`Channel` in the source); only the fields the manager reads. -/
structure Channel where
  id : String
  name : String
deriving DecidableEq

/-- Presence states (`UserPresence` in the source). -/
inductive UserPresence where
  | available
  | idle
  | doNotDisturb
  | invisible
  | offline
deriving DecidableEq

/-- The per-provider current-user record (`CurrentUser`): identity, the
optionally selected team and the provider it belongs to. -/
structure CurrentUser where
  id : String
  currentTeamId : Option String
  provider : String
deriving DecidableEq

/-- The closed set of chat backends built by `instantiateChatProvider`:
`DiscordChatProvider`, `SlackChatProvider`, `VslsChatProvider`. -/
inductive IChatProvider where
  | discord (token : String)
  | slack (token : String)
  | vsls
deriving DecidableEq

/-- One `ChatProviderManager` session.  Its identity (`sid`) stands for the
JavaScript object identity, so "the same session object" is `sid`-equality of
the whole record.  The cached users / channels / presences model the caches a
session owns (the `ChatProviderManager` source is outside `src/`; per the
spec, a `BackendSession` owns that backend's cached users, channels and
presence). -/
structure Session where
  sid : Nat
  provider : String
  chatProvider : IChatProvider
  channelLabels : List String
  teams : List Team
  users : List (String × User)
  channels : List Channel
  presences : List (String × UserPresence)
deriving DecidableEq

/-- The vsls contact-provider bridge (`VslsContactProvider`): the provider it
is bound to and its `isInitialized` flag. -/
structure Bridge where
  presenceProvider : String
  isInitialized : Bool
deriving DecidableEq

/-- Announcements the bridge makes on binding (`notifySelfContact`,
`notifyAvailableUsers`), tagged by the current user's id. -/
inductive Announcement where
  | selfContact (userId : String)
  | availableUsers (userId : String)
deriving DecidableEq

/-! ## JavaScript `Map` / association-list helpers -/

/-- `Map.get k` on an insertion-ordered association list. -/
def mget {α : Type} (m : List (String × α)) (k : String) : Option α :=
  (m.find? (fun e => e.1 == k)).map Prod.snd

/-- `Map.set k v`: overwrite in place when the key exists, append otherwise. -/
def mset {α : Type} (m : List (String × α)) (k : String) (v : α) :
    List (String × α) :=
  if (m.find? (fun e => e.1 == k)).isSome then
    m.map (fun e => if e.1 == k then (k, v) else e)
  else m ++ [(k, v)]

/-- `Map.delete k`. -/
def mdel {α : Type} (m : List (String × α)) (k : String) : List (String × α) :=
  m.filter (fun e => !(e.1 == k))

/-- Modelled from the spec: the `PersistentStore` collaborator (`IStore`,
whose implementation is outside `src/`) keeps per-provider current-user
records, user caches, channel caches and the last selected channel id. -/
structure Store where
  currentUsers : List CurrentUser
  usersByProvider : List (String × List (String × User))
  channelsByProvider : List (String × List Channel)
  lastChannelByProvider : List (String × Option String)
deriving DecidableEq

/-- `store.getCurrentUserForAll()`. -/
def Store.getCurrentUserForAll (st : Store) : List CurrentUser :=
  st.currentUsers

/-- `store.getCurrentUser(provider)`: the record for that provider. -/
def Store.getCurrentUser (st : Store) (provider : String) : Option CurrentUser :=
  st.currentUsers.find? (fun cu => cu.provider == provider)

/-- `store.getUsers(provider)`. -/
def Store.getUsers (st : Store) (provider : String) : List (String × User) :=
  (mget st.usersByProvider provider).getD []

/-- `store.getChannels(provider)`. -/
def Store.getChannels (st : Store) (provider : String) : List Channel :=
  (mget st.channelsByProvider provider).getD []

/-- `store.getLastChannelId(provider)`. -/
def Store.getLastChannelId (st : Store) (provider : String) : Option String :=
  (mget st.lastChannelByProvider provider).getD none

/-- `store.updateUsers(provider, users)`. -/
def Store.updateUsers (st : Store) (provider : String)
    (us : List (String × User)) : Store :=
  { st with usersByProvider := mset st.usersByProvider provider us }

/-- `store.updateChannels(provider, channels)`. -/
def Store.updateChannels (st : Store) (provider : String)
    (cs : List Channel) : Store :=
  { st with channelsByProvider := mset st.channelsByProvider provider cs }

/-- `store.updateLastChannelId(provider, channelId)`. -/
def Store.updateLastChannelId (st : Store) (provider : String)
    (cid : Option String) : Store :=
  { st with lastChannelByProvider := mset st.lastChannelByProvider provider cid }

/-- Modelled from the spec: `store.clearProviderState(provider)` clears that
provider's persisted cache in the external store (current user, users,
channels, last channel), leaving other providers' entries alone. -/
def Store.clearProviderState (st : Store) (provider : String) : Store :=
  { currentUsers := st.currentUsers.filter (fun cu => !(cu.provider == provider)),
    usersByProvider := mdel st.usersByProvider provider,
    channelsByProvider := mdel st.channelsByProvider provider,
    lastChannelByProvider := mdel st.lastChannelByProvider provider }

/-- The `Manager` class state together with its environment: `tokens` is the
secret store behind `ConfigHelper.getToken` / `clearToken` (modelled from the
spec's `SecretStore` collaborator), `hasVsls` is the stable result of
`hasVslsExtension()`, and `nextSid` feeds fresh object identities to newly
constructed sessions. -/
structure Manager where
  isTokenInitialized : Bool
  chatProviders : List (String × Session)
  vslsContactProvider : Option Bridge
  store : Store
  tokens : List (String × String)
  hasVsls : Bool
  nextSid : Nat
deriving DecidableEq

/-- Modelled from the spec: `ConfigHelper.getToken(provider)` reads the
stored credential of a provider from the secret store. -/
def getToken (tokens : List (String × String)) (provider : String) :
    Option String :=
  mget tokens provider

/-- Modelled from the spec: `ConfigHelper.clearToken(provider)` removes the
stored credential of a provider from the secret store. -/
def clearToken (tokens : List (String × String)) (provider : String) :
    List (String × String) :=
  mdel tokens provider

/-! ## `getEnabledProviders` -/

/-- The JavaScript deduplication idiom
`providers.filter((item, pos) => providers.indexOf(item) === pos)`. -/
def jsDedup (l : List String) : List String :=
  (l.enum.filter (fun ip => l.indexOf ip.2 == ip.1)).map Prod.snd

/-- `Manager.getEnabledProviders()`: provider ids of all stored current-user
records, plus `"vsls"` when the Live Share extension is present, with
duplicates removed (first occurrence kept). -/
def getEnabledProviders (s : Manager) : List String :=
  jsDedup (s.store.getCurrentUserForAll.map (fun cu => cu.provider)
    ++ (if s.hasVsls then ["vsls"] else []))

/-! ## `instantiateChatProvider` and `initializeToken` -/

/-- `Manager.instantiateChatProvider(token, provider)`: a `switch` over the
closed provider set; the `default` branch throws
`` `unsupport chat provider: ${provider}` ``. -/
def instantiateChatProvider (token : String) (provider : String) :
    Except String IChatProvider :=
  match provider with
  | "discord" => Except.ok (IChatProvider.discord token)
  | "slack" => Except.ok (IChatProvider.slack token)
  | "vsls" => Except.ok IChatProvider.vsls
  | _ => Except.error ("unsupport chat provider: " ++ provider)

/-- `new ChatProviderManager(store, provider, chatProvider, this)`: a freshly
constructed session with empty caches and a fresh object identity. -/
def mkSession (sid : Nat) (provider : String) (cp : IChatProvider) : Session :=
  { sid := sid, provider := provider, chatProvider := cp,
    channelLabels := [], teams := [], users := [], channels := [],
    presences := [] }

/-- The loop body of `initializeToken`: for each enabled provider (skipping
falsy ids), read the stored token; with a token, either leave an existing
session untouched or instantiate and register a fresh one, setting
`isTokenInitialized`.  A thrown `unsupport chat provider` error aborts the
loop, leaving the mutations made so far in place (second component). -/
def initFold : List String → Manager → Manager × Option String
  | [], s => (s, none)
  | p :: rest, s =>
    if p = "" then initFold rest s
    else
      match getToken s.tokens p with
      | none => initFold rest s
      | some tok =>
        match mget s.chatProviders p with
        | some _ => initFold rest { s with isTokenInitialized := true }
        | none =>
          match instantiateChatProvider tok p with
          | Except.error e => (s, some e)
          | Except.ok cp =>
            initFold rest
              { s with
                chatProviders :=
                  mset s.chatProviders p (mkSession s.nextSid p cp),
                nextSid := s.nextSid + 1,
                isTokenInitialized := true }

/-- `if (!!newProvider) enabledProviders.push(newProvider)`: the extra
provider appended to the enabled list (skipped when absent or falsy). -/
def newProviderList : Option String → List String
  | none => []
  | some p => if p = "" then [] else [p]

/-- `Manager.initializeToken(newProvider?)`: run the activation loop over the
enabled providers plus the optional new provider.  Returns the state after
the loop together with the propagated error, if the loop threw. -/
def initializeToken (s : Manager) (np : Option String) :
    Manager × Option String :=
  initFold (getEnabledProviders s ++ newProviderList np) s

/-! ## `signout`, `clearAll`, `clearOldWorkspace` -/

/-- The body of the `signout` loop: skip `"vsls"`, otherwise clear that
provider's stored token and set `hasSignedOut`. -/
def signoutStep (acc : List (String × String) × Bool) (e : String × Session) :
    List (String × String) × Bool :=
  if e.1 = "vsls" then acc else (clearToken acc.1 e.1, true)

/-- `Manager.signout()`: for every registered provider other than `"vsls"`,
clear its stored token and remember that something was signed out; fire the
`RESET_STORE` command (second component) iff the flag was set. -/
def signout (s : Manager) : Manager × Bool :=
  let r := s.chatProviders.foldl signoutStep (s.tokens, false)
  ({ s with tokens := r.1 }, r.2)

/-- One iteration of the `clearAll` loop over the key snapshot: skip
`"vsls"`; otherwise clear the provider's persisted store state, and when a
session is registered destroy it (its `sid` is appended to the destruction
log) and delete it from the map. -/
def clearAllStep (acc : Manager × List Nat) (p : String) :
    Manager × List Nat :=
  if p = "vsls" then acc
  else
    match mget acc.1.chatProviders p with
    | none => ({ acc.1 with store := acc.1.store.clearProviderState p }, acc.2)
    | some cp =>
        ({ acc.1 with store := acc.1.store.clearProviderState p,
                      chatProviders := mdel acc.1.chatProviders p },
         acc.2 ++ [cp.sid])

/-- `Manager.clearAll()`: iterate over a snapshot of the registered provider
ids, clearing store state and destroying/removing every non-vsls session,
then reset `isTokenInitialized`.  The second component logs the `sid`s of the
sessions whose `destroy()` was called. -/
def clearAll (s : Manager) : Manager × List Nat :=
  let r := (s.chatProviders.map Prod.fst).foldl clearAllStep (s, [])
  ({ r.1 with isTokenInitialized := false }, r.2)

/-- `Manager.clearOldWorkspace(provider)`: reset that provider's persisted
users, channels and last selected channel. -/
def clearOldWorkspace (s : Manager) (provider : String) : Manager :=
  { s with store :=
      ((s.store.updateUsers provider []).updateChannels provider
        []).updateLastChannelId provider none }

/-! ## Per-provider dispatch operations

Each operation looks the session up by provider id and returns `undefined`
(here `none`) when no session is registered; otherwise it delegates to the
session.  The delegated results live in `ChatProviderManager`, whose source
is outside `src/`; following the spec, value-returning delegates answer from
the session's own caches and `void` delegates yield `()`. -/

/-- `Manager.sendMessage(providerName, text, channelId, parentTimestamp)`. -/
def sendMessage (s : Manager) (providerName : String) (text : String)
    (channelId : String) (parentTimestamp : Option String) : Option Unit :=
  (mget s.chatProviders providerName).map (fun _ => ())

/-- `Manager.fetchUsers(providerName)`. -/
def fetchUsers (s : Manager) (providerName : String) :
    Option (List (String × User)) :=
  (mget s.chatProviders providerName).map (fun cp => cp.users)

/-- `Manager.fetchChannels(providerName)`. -/
def fetchChannels (s : Manager) (providerName : String) :
    Option (List Channel) :=
  (mget s.chatProviders providerName).map (fun cp => cp.channels)

/-- `Manager.getChannel(provider, channelId)`. -/
def getChannel (s : Manager) (provider : String) (channelId : Option String) :
    Option (Option Channel) :=
  (mget s.chatProviders provider).map
    (fun cp => cp.channels.find? (fun c => some c.id == channelId))

/-- `Manager.createIMChannel(providerName, user)`. -/
def createIMChannel (s : Manager) (providerName : String) (user : User) :
    Option (Option Channel) :=
  (mget s.chatProviders providerName).map
    (fun cp => cp.channels.find? (fun c => c.name == user.name))

/-- `Manager.updateSelfPresence(providerName, presence, durationInMinutes)`. -/
def updateSelfPresence (s : Manager) (providerName : String)
    (presence : UserPresence) (durationInMinutes : Nat) : Option Unit :=
  (mget s.chatProviders providerName).map (fun _ => ())

/-- `Manager.getUserPresence(provider, userId)`. -/
def getUserPresence (s : Manager) (provider : String) (userId : String) :
    Option (Option UserPresence) :=
  (mget s.chatProviders provider).map (fun cp => mget cp.presences userId)

/-- `Manager.addReaction(providerName, channelId, msgTimestamp, userId,
reactionName)`. -/
def addReaction (s : Manager) (providerName : String) (channelId : String)
    (msgTimestamp : String) (userId : String) (reactionName : String) :
    Option Unit :=
  (mget s.chatProviders providerName).map (fun _ => ())

/-- `Manager.removeReaction(providerName, channelId, msgTimestamp, userId,
reactionName)`. -/
def removeReaction (s : Manager) (providerName : String) (channelId : String)
    (msgTimestamp : String) (userId : String) (reactionName : String) :
    Option Unit :=
  (mget s.chatProviders providerName).map (fun _ => ())

/-- `Manager.loadChannelHistory(providerName, channelId)`. -/
def loadChannelHistory (s : Manager) (providerName : String)
    (channelId : String) : Option Unit :=
  (mget s.chatProviders providerName).map (fun _ => ())

/-- `Manager.fetchThreadReplies(providerName, parentTimestamp)`. -/
def fetchThreadReplies (s : Manager) (providerName : String)
    (parentTimestamp : String) : Option Unit :=
  (mget s.chatProviders providerName).map (fun _ => ())

/-- `Manager.updateChannelMarked(provider, channelId, readTimestamp,
unreadCount)`. -/
def updateChannelMarked (s : Manager) (provider : String) (channelId : String)
    (readTimestamp : String) (unreadCount : Nat) : Option Unit :=
  (mget s.chatProviders provider).map (fun _ => ())

/-! ## `getChannelLabels` -/

/-- JavaScript truthiness of the optional string argument: `!provider` is
`true` both for `undefined` and for the empty string. -/
def jsFalsyString : Option String → Bool
  | none => true
  | some str => str == ""

/-- The body of the `getChannelLabels` loop: the source filter is
`if (!provider || provider === providerName)`. -/
def labelStep (provider : Option String) (acc : List String)
    (e : String × Session) : List String :=
  if jsFalsyString provider || provider == some e.1 then
    acc ++ e.2.channelLabels
  else acc

/-- `Manager.getChannelLabels(provider)`: walk the session map in insertion
order and concatenate `cp.getChannelLabels()` of every session the filter
`!provider || provider === providerName` lets through. -/
def getChannelLabels (s : Manager) (provider : Option String) : List String :=
  s.chatProviders.foldl (labelStep provider) []

/-! ## `initializeVslsContactProvider` -/

/-- `!this.vslsContactProvider || !this.vslsContactProvider.isInitialized`. -/
def bridgeNotInit : Option Bridge → Bool
  | none => true
  | some b => !b.isInitialized

/-- `Manager.initializeVslsContactProvider()`: when the Live Share extension
is present and some non-vsls provider is enabled, and no initialized bridge
exists yet, bind a fresh bridge to the **first** enabled non-vsls provider
(`register()` is outside `src/`; modelled from the spec as marking the bridge
initialized) and announce the self contact and the available users.  The
second component records the announcements made. -/
def initializeVslsContactProvider (s : Manager) :
    Manager × List Announcement :=
  let nonVslsProviders :=
    (getEnabledProviders s).filter (fun p => !(p == "vsls"))
  match nonVslsProviders with
  | [] => (s, [])
  | presenceProvider :: _ =>
    if s.hasVsls then
      match s.store.getCurrentUser presenceProvider with
      | some currentUserInfo =>
        if bridgeNotInit s.vslsContactProvider then
          ({ s with vslsContactProvider := some (Bridge.mk presenceProvider true) },
           [Announcement.selfContact currentUserInfo.id,
            Announcement.availableUsers currentUserInfo.id])
        else (s, [])
      | none => (s, [])
    else (s, [])

/-! ## Association-list lemmas -/

theorem mget_eq_none_iff {α : Type} (m : List (String × α)) (k : String) :
    mget m k = none ↔ ∀ e ∈ m, e.1 ≠ k := by
  simp [mget, List.find?_eq_none]

theorem find?_eq_none_of_mget_none {α : Type} {m : List (String × α)}
    {k : String} (h : mget m k = none) :
    m.find? (fun e => e.1 == k) = none := by
  unfold mget at h
  exact Option.map_eq_none'.mp h

theorem mget_cons_pos {α : Type} {e : String × α} (t : List (String × α))
    {k : String} (h : (e.1 == k) = true) : mget (e :: t) k = some e.2 := by
  have h1 : List.find? (fun x => x.1 == k) (e :: t) = some e :=
    List.find?_cons_of_pos _ h
  unfold mget
  rw [h1]
  rfl

theorem mget_cons_neg {α : Type} {e : String × α} (t : List (String × α))
    {k : String} (h : (e.1 == k) = false) : mget (e :: t) k = mget t k := by
  have h1 : List.find? (fun x => x.1 == k) (e :: t) =
      List.find? (fun x => x.1 == k) t :=
    List.find?_cons_of_neg _ (by simp [h])
  unfold mget
  rw [h1]

theorem mget_append {α : Type} (m₁ m₂ : List (String × α)) (k : String) :
    mget (m₁ ++ m₂) k = (mget m₁ k).or (mget m₂ k) := by
  unfold mget
  rw [List.find?_append]
  cases m₁.find? (fun e => e.1 == k) <;> simp

theorem mget_append_left {α : Type} {m₁ : List (String × α)} {k : String}
    {a : α} (h : mget m₁ k = some a) (m₂ : List (String × α)) :
    mget (m₁ ++ m₂) k = some a := by
  rw [mget_append, h]
  rfl

theorem mset_of_mget_none {α : Type} {m : List (String × α)} {k : String}
    (h : mget m k = none) (v : α) : mset m k v = m ++ [(k, v)] := by
  simp [mset, find?_eq_none_of_mget_none h]

theorem mget_overwrite_self {α : Type} (m : List (String × α)) (k : String)
    (v : α) (hs : (m.find? (fun e => e.1 == k)).isSome) :
    mget (m.map (fun e => if e.1 == k then (k, v) else e)) k = some v := by
  induction m with
  | nil => simp at hs
  | cons e t ih =>
    by_cases hk : (e.1 == k) = true
    · rw [List.map_cons, if_pos hk, mget_cons_pos _ (by simp)]
    · have hkf : (e.1 == k) = false := by simpa using hk
      have hfind : List.find? (fun x => x.1 == k) (e :: t) =
          List.find? (fun x => x.1 == k) t :=
        List.find?_cons_of_neg _ hk
      rw [hfind] at hs
      rw [List.map_cons, if_neg hk, mget_cons_neg _ hkf]
      exact ih hs

theorem mget_overwrite_ne {α : Type} (m : List (String × α)) {k q : String}
    (v : α) (h : q ≠ k) :
    mget (m.map (fun e => if e.1 == k then (k, v) else e)) q = mget m q := by
  induction m with
  | nil => rfl
  | cons e t ih =>
    by_cases hk : (e.1 == k) = true
    · have hek : e.1 = k := by simpa using hk
      have h1 : ((k, v).1 == q) = false := beq_eq_false_iff_ne.mpr (Ne.symm h)
      have h2 : (e.1 == q) = false := by
        rw [hek]
        exact beq_eq_false_iff_ne.mpr (Ne.symm h)
      rw [List.map_cons, if_pos hk, mget_cons_neg _ h1, mget_cons_neg _ h2]
      exact ih
    · rw [List.map_cons, if_neg hk]
      by_cases hq : (e.1 == q) = true
      · rw [mget_cons_pos _ hq, mget_cons_pos _ hq]
      · have hqf : (e.1 == q) = false := by simpa using hq
        rw [mget_cons_neg _ hqf, mget_cons_neg _ hqf]
        exact ih

theorem mget_mset_self {α : Type} (m : List (String × α)) (k : String)
    (v : α) : mget (mset m k v) k = some v := by
  by_cases hs : (m.find? (fun e => e.1 == k)).isSome
  · simp only [mset, hs, if_true]
    exact mget_overwrite_self m k v hs
  · have hn : mget m k = none := by
      simp only [mget, Option.not_isSome_iff_eq_none.mp hs, Option.map_none']
    rw [mset_of_mget_none hn, mget_append, hn]
    rw [mget_cons_pos _ (by simp)]
    rfl

theorem mget_mset_ne {α : Type} (m : List (String × α)) {k q : String}
    (v : α) (h : q ≠ k) : mget (mset m k v) q = mget m q := by
  by_cases hs : (m.find? (fun e => e.1 == k)).isSome
  · simp only [mset, hs, if_true]
    exact mget_overwrite_ne m v h
  · have hn : mget m k = none := by
      simp only [mget, Option.not_isSome_iff_eq_none.mp hs, Option.map_none']
    rw [mset_of_mget_none hn, mget_append]
    have h1 : mget [(k, v)] q = none := by
      rw [mget_cons_neg _ (beq_eq_false_iff_ne.mpr (Ne.symm h))]
      rfl
    rw [h1]
    cases mget m q <;> rfl

theorem mget_filter_none {α : Type} {m : List (String × α)} {k : String}
    (f : String × α → Bool) (h : mget m k = none) :
    mget (m.filter f) k = none := by
  rw [mget_eq_none_iff] at h ⊢
  intro e he
  exact h e (List.mem_filter.mp he).1

theorem mget_mdel_self {α : Type} (m : List (String × α)) (k : String) :
    mget (mdel m k) k = none := by
  rw [mget_eq_none_iff]
  intro e he
  unfold mdel at he
  have h2 := (List.mem_filter.mp he).2
  simpa using h2

theorem mget_mdel_ne {α : Type} (m : List (String × α)) {k q : String}
    (h : q ≠ k) : mget (mdel m k) q = mget m q := by
  induction m with
  | nil => rfl
  | cons e t ih =>
    by_cases hk : (e.1 == k) = true
    · have hek : e.1 = k := by simpa using hk
      have h2 : (e.1 == q) = false := by
        rw [hek]
        exact beq_eq_false_iff_ne.mpr (Ne.symm h)
      unfold mdel
      rw [List.filter_cons_of_neg (by simp [hk]), mget_cons_neg _ h2]
      exact ih
    · unfold mdel
      rw [List.filter_cons_of_pos (by simpa using hk)]
      by_cases hq : (e.1 == q) = true
      · rw [mget_cons_pos _ hq, mget_cons_pos _ hq]
      · have hqf : (e.1 == q) = false := by simpa using hq
        rw [mget_cons_neg _ hqf, mget_cons_neg _ hqf]
        exact ih

theorem keys_mset_of_mget_none {α : Type} {m : List (String × α)}
    {k : String} (h : mget m k = none) (v : α) :
    (mset m k v).map Prod.fst = m.map Prod.fst ++ [k] := by
  rw [mset_of_mget_none h]
  simp

theorem not_mem_keys_of_mget_none {α : Type} {m : List (String × α)}
    {k : String} (h : mget m k = none) : k ∉ m.map Prod.fst := by
  rw [mget_eq_none_iff] at h
  intro hmem
  obtain ⟨e, he, rfl⟩ := List.mem_map.mp hmem
  exact h e he rfl

/-! ## `jsDedup` lemmas -/

theorem mem_jsDedup (l : List String) (x : String) :
    x ∈ jsDedup l ↔ x ∈ l := by
  constructor
  · intro h
    obtain ⟨ip, hip, hsnd⟩ := List.mem_map.mp h
    obtain ⟨i, a⟩ := ip
    have h1 : (i, a) ∈ l.enum := (List.mem_filter.mp hip).1
    have h2 : l[i]? = some a := List.mk_mem_enum_iff_getElem?.mp h1
    cases hsnd
    exact List.getElem?_mem h2
  · intro h
    apply List.mem_map.mpr
    refine ⟨(l.indexOf x, x), ?_, rfl⟩
    apply List.mem_filter.mpr
    constructor
    · exact List.mk_mem_enum_iff_getElem?.mpr (List.getElem?_indexOf h)
    · simp

theorem nodup_jsDedup (l : List String) : (jsDedup l).Nodup := by
  unfold jsDedup
  apply List.Nodup.map_on
  · intro x hx y hy hxy
    have hx3 : l.indexOf x.2 = x.1 := by
      simpa using (List.mem_filter.mp hx).2
    have hy3 : l.indexOf y.2 = y.1 := by
      simpa using (List.mem_filter.mp hy).2
    have h1 : x.1 = y.1 := by rw [← hx3, ← hy3, hxy]
    exact Prod.ext h1 hxy
  · exact ((List.nodup_enum_map_fst l).of_map _).filter _

theorem count_jsDedup (l : List String) (x : String) (h : x ∈ l) :
    (jsDedup l).count x = 1 :=
  List.count_eq_one_of_mem (nodup_jsDedup l) ((mem_jsDedup l x).mpr h)

/-! ## Claim C4 -/

/-- **C4.** For every list of credential-derived provider ids and every
environment-detection outcome, `getEnabledProviders()` returns a list in
which each provider id appears exactly once: the result is duplicate-free,
it has exactly the ids discovered from stored current-user records or from
the live vsls-extension check, and each discovered id — even one found
through both sources — appears exactly once. -/
theorem C4_getEnabledProviders_unique (s : Manager) :
    (getEnabledProviders s).Nodup
    ∧ (∀ p, p ∈ getEnabledProviders s ↔
        p ∈ s.store.getCurrentUserForAll.map (fun cu => cu.provider)
          ++ (if s.hasVsls then ["vsls"] else []))
    ∧ (∀ p, p ∈ s.store.getCurrentUserForAll.map (fun cu => cu.provider)
          ++ (if s.hasVsls then ["vsls"] else []) →
        (getEnabledProviders s).count p = 1) :=
  ⟨nodup_jsDedup _, fun p => mem_jsDedup _ p, fun p hp => count_jsDedup _ p hp⟩

/-- A concrete manager whose store holds a `vsls` current-user record while
the vsls extension is also detected live, so `"vsls"` is discovered twice. -/
def w4 : Manager :=
  { isTokenInitialized := false,
    chatProviders := [],
    vslsContactProvider := none,
    store := { currentUsers := [{ id := "u1", currentTeamId := none,
                                  provider := "vsls" }],
               usersByProvider := [], channelsByProvider := [],
               lastChannelByProvider := [] },
    tokens := [], hasVsls := true, nextSid := 0 }

/-- **C4 witness.** On the duplicated-discovery state `w4`, `"vsls"` is in
the raw provider list and appears exactly once in the result. -/
theorem C4_witness :
    ("vsls" ∈ w4.store.getCurrentUserForAll.map (fun cu => cu.provider)
      ++ (if w4.hasVsls then ["vsls"] else []))
    ∧ (getEnabledProviders w4).count "vsls" = 1 :=
  ⟨by decide, (C4_getEnabledProviders_unique w4).2.2 "vsls" (by decide)⟩

/-! ## Claim C8 -/

/-- **C8.** For every provider id outside the supported set
`{discord, slack, vsls}` and every token, `instantiateChatProvider` fails by
throwing the `unsupport chat provider` error rather than returning a backend
or silently skipping. -/
theorem C8_instantiateChatProvider_unknown (token provider : String)
    (h1 : provider ≠ "discord") (h2 : provider ≠ "slack")
    (h3 : provider ≠ "vsls") :
    instantiateChatProvider token provider =
      Except.error ("unsupport chat provider: " ++ provider) := by
  unfold instantiateChatProvider
  split
  · exact absurd rfl h1
  · exact absurd rfl h2
  · exact absurd rfl h3
  · rfl

/-- **C8 witness.** The unsupported id `"teams"` makes the factory throw. -/
theorem C8_witness :
    ("teams" : String) ≠ "discord" ∧ ("teams" : String) ≠ "slack"
    ∧ ("teams" : String) ≠ "vsls"
    ∧ instantiateChatProvider "tok" "teams" =
        Except.error ("unsupport chat provider: " ++ "teams") :=
  ⟨by decide, by decide, by decide,
   C8_instantiateChatProvider_unknown "tok" "teams" (by decide) (by decide)
     (by decide)⟩

/-! ## Claim C5 -/

/-- **C5.** Every per-provider dispatch operation, called with a provider id
that has no registered session, returns the absent result (`none`) and never
throws. -/
theorem C5_dispatch_absent (s : Manager) (p : String)
    (h : mget s.chatProviders p = none) :
    (∀ text channelId parentTimestamp,
        sendMessage s p text channelId parentTimestamp = none)
    ∧ fetchUsers s p = none
    ∧ fetchChannels s p = none
    ∧ (∀ channelId, getChannel s p channelId = none)
    ∧ (∀ user, createIMChannel s p user = none)
    ∧ (∀ presence d, updateSelfPresence s p presence d = none)
    ∧ (∀ userId, getUserPresence s p userId = none)
    ∧ (∀ c t u r, addReaction s p c t u r = none)
    ∧ (∀ c t u r, removeReaction s p c t u r = none)
    ∧ (∀ c, loadChannelHistory s p c = none)
    ∧ (∀ t, fetchThreadReplies s p t = none)
    ∧ (∀ c t n, updateChannelMarked s p c t n = none) := by
  refine ⟨fun _ _ _ => ?_, ?_, ?_, fun _ => ?_, fun _ => ?_, fun _ _ => ?_,
    fun _ => ?_, fun _ _ _ _ => ?_, fun _ _ _ _ => ?_, fun _ => ?_,
    fun _ => ?_, fun _ _ _ => ?_⟩ <;>
  simp [sendMessage, fetchUsers, fetchChannels, getChannel, createIMChannel,
    updateSelfPresence, getUserPresence, addReaction, removeReaction,
    loadChannelHistory, fetchThreadReplies, updateChannelMarked, h]

/-- **C5 witness.** Dispatching `sendMessage` to the unregistered id
`"ghost"` on a state with no sessions yields `none`. -/
theorem C5_witness :
    mget w4.chatProviders "ghost" = none
    ∧ sendMessage w4 "ghost" "hi" "c1" none = none :=
  ⟨rfl, (C5_dispatch_absent w4 "ghost" rfl).1 "hi" "c1" none⟩

/-! ## Claim C7 -/

/-- **C7.** `clearOldWorkspace(p)` empties provider `p`'s persisted users,
channels and last-selected channel, leaves `p`'s session registered (the
session map is untouched), and leaves every other provider's cached users,
channels and last channel — and all current-user records — unchanged. -/
theorem C7_clearOldWorkspace_frame (s : Manager) (p : String) :
    (clearOldWorkspace s p).store.getUsers p = []
    ∧ (clearOldWorkspace s p).store.getChannels p = []
    ∧ (clearOldWorkspace s p).store.getLastChannelId p = none
    ∧ (clearOldWorkspace s p).chatProviders = s.chatProviders
    ∧ (clearOldWorkspace s p).isTokenInitialized = s.isTokenInitialized
    ∧ (∀ q, q ≠ p →
        (clearOldWorkspace s p).store.getUsers q = s.store.getUsers q
        ∧ (clearOldWorkspace s p).store.getChannels q = s.store.getChannels q
        ∧ (clearOldWorkspace s p).store.getLastChannelId q
            = s.store.getLastChannelId q)
    ∧ (clearOldWorkspace s p).store.currentUsers = s.store.currentUsers := by
  unfold clearOldWorkspace Store.updateUsers Store.updateChannels
    Store.updateLastChannelId
  refine ⟨?_, ?_, ?_, rfl, rfl, fun q hq => ⟨?_, ?_, ?_⟩, rfl⟩
  · unfold Store.getUsers
    rw [mget_mset_self]
    rfl
  · unfold Store.getChannels
    rw [mget_mset_self]
    rfl
  · unfold Store.getLastChannelId
    rw [mget_mset_self]
    rfl
  · unfold Store.getUsers
    rw [mget_mset_ne _ _ hq]
  · unfold Store.getChannels
    rw [mget_mset_ne _ _ hq]
  · unfold Store.getLastChannelId
    rw [mget_mset_ne _ _ hq]

/-- A manager with persisted caches for two providers, used to exercise
`clearOldWorkspace`. -/
def w7 : Manager :=
  { isTokenInitialized := true,
    chatProviders := [],
    vslsContactProvider := none,
    store := { currentUsers := [],
               usersByProvider :=
                 [("slack", [("u1", { id := "u1", name := "alice" })]),
                  ("discord", [("u2", { id := "u2", name := "bob" })])],
               channelsByProvider :=
                 [("slack", [{ id := "c1", name := "general" }]),
                  ("discord", [{ id := "c2", name := "random" }])],
               lastChannelByProvider :=
                 [("slack", some "c1"), ("discord", some "c2")] },
    tokens := [], hasVsls := false, nextSid := 0 }

/-- **C7 witness.** Clearing `"slack"` empties its caches and leaves
`"discord"`'s users untouched. -/
theorem C7_witness :
    ("discord" : String) ≠ "slack"
    ∧ (clearOldWorkspace w7 "slack").store.getUsers "slack" = []
    ∧ (clearOldWorkspace w7 "slack").store.getUsers "discord"
        = w7.store.getUsers "discord" :=
  ⟨by decide, (C7_clearOldWorkspace_frame w7 "slack").1,
   ((C7_clearOldWorkspace_frame w7 "slack").2.2.2.2.2.1 "discord"
     (by decide)).1⟩

/-! ## Claim C10 -/

/-- **C10.** `signout` never mutates the provider-to-session registry: the
`chatProviders` map, `isTokenInitialized`, the persistent store, the vsls
bridge and the session counter are all exactly as before; only the token
store changes and the reset notification possibly fires. -/
theorem C10_signout_registry_frame (s : Manager) :
    (signout s).1.chatProviders = s.chatProviders
    ∧ (signout s).1.isTokenInitialized = s.isTokenInitialized
    ∧ (signout s).1.store = s.store
    ∧ (signout s).1.vslsContactProvider = s.vslsContactProvider
    ∧ (signout s).1.hasVsls = s.hasVsls
    ∧ (signout s).1.nextSid = s.nextSid :=
  ⟨rfl, rfl, rfl, rfl, rfl, rfl⟩

/-! ## Claim C2: the `signout` loop -/

theorem signoutStep_vsls (acc : List (String × String) × Bool)
    {e : String × Session} (h : e.1 = "vsls") : signoutStep acc e = acc := by
  unfold signoutStep
  rw [if_pos h]

theorem signoutStep_other (acc : List (String × String) × Bool)
    {e : String × Session} (h : ¬e.1 = "vsls") :
    signoutStep acc e = (clearToken acc.1 e.1, true) := by
  unfold signoutStep
  rw [if_neg h]

theorem mget_mdel_none {α : Type} {m : List (String × α)} {p : String}
    (k : String) (h : mget m p = none) : mget (mdel m k) p = none := by
  unfold mdel
  exact mget_filter_none _ h

theorem signoutFold_fired (l : List (String × Session)) :
    ∀ (tok : List (String × String)) (b : Bool),
      (l.foldl signoutStep (tok, b)).2
        = (b || l.any (fun e => !(e.1 == "vsls"))) := by
  induction l with
  | nil => intro tok b; simp
  | cons e t ih =>
    intro tok b
    by_cases hv : e.1 = "vsls"
    · rw [List.foldl_cons, signoutStep_vsls _ hv, ih tok b, List.any_cons]
      simp [hv]
    · rw [List.foldl_cons, signoutStep_other _ hv,
        ih (clearToken tok e.1) true, List.any_cons]
      simp [hv]

theorem signoutFold_none_mono (p : String) (l : List (String × Session)) :
    ∀ (tok : List (String × String)) (b : Bool),
      getToken tok p = none →
      getToken (l.foldl signoutStep (tok, b)).1 p = none := by
  induction l with
  | nil => intro tok b h; exact h
  | cons e t ih =>
    intro tok b h
    by_cases hv : e.1 = "vsls"
    · rw [List.foldl_cons, signoutStep_vsls _ hv]
      exact ih tok b h
    · rw [List.foldl_cons, signoutStep_other _ hv]
      refine ih _ true ?_
      unfold getToken at h ⊢
      unfold clearToken
      exact mget_mdel_none _ h

theorem signoutFold_clears (p : String) (hp : p ≠ "vsls")
    (l : List (String × Session)) :
    ∀ (tok : List (String × String)) (b : Bool), p ∈ l.map Prod.fst →
      getToken (l.foldl signoutStep (tok, b)).1 p = none := by
  induction l with
  | nil => intro tok b h; simp at h
  | cons e t ih =>
    intro tok b hmem
    rw [List.map_cons] at hmem
    by_cases hv : e.1 = "vsls"
    · rw [List.foldl_cons, signoutStep_vsls _ hv]
      have hpe : p ≠ e.1 := fun h => hp (h.trans hv)
      have hmem' : p ∈ t.map Prod.fst := by
        rcases List.mem_cons.mp hmem with h | h
        · exact absurd h hpe
        · exact h
      exact ih tok b hmem'
    · rw [List.foldl_cons, signoutStep_other _ hv]
      by_cases hpe : p = e.1
      · refine signoutFold_none_mono p t _ true ?_
        unfold getToken clearToken
        rw [hpe]
        exact mget_mdel_self tok e.1
      · have hmem' : p ∈ t.map Prod.fst := by
          rcases List.mem_cons.mp hmem with h | h
          · exact absurd h hpe
          · exact h
        exact ih _ true hmem'

theorem signoutFold_frame (p : String) (l : List (String × Session)) :
    ∀ (tok : List (String × String)) (b : Bool),
      (p = "vsls" ∨ p ∉ l.map Prod.fst) →
      getToken (l.foldl signoutStep (tok, b)).1 p = getToken tok p := by
  induction l with
  | nil => intro tok b h; rfl
  | cons e t ih =>
    intro tok b h
    have hnext : p = "vsls" ∨ p ∉ t.map Prod.fst := by
      rcases h with h | h
      · exact Or.inl h
      · exact Or.inr (fun hm => h (by rw [List.map_cons]; exact List.mem_cons_of_mem _ hm))
    by_cases hv : e.1 = "vsls"
    · rw [List.foldl_cons, signoutStep_vsls _ hv]
      exact ih tok b hnext
    · rw [List.foldl_cons, signoutStep_other _ hv]
      have hpe : p ≠ e.1 := by
        rcases h with h | h
        · exact fun hh => hv (hh ▸ h)
        · intro hh
          exact h (by rw [List.map_cons, hh]; exact List.mem_cons_self _ _)
      have h1 : getToken (clearToken tok e.1) p = getToken tok p := by
        unfold getToken clearToken
        exact mget_mdel_ne tok hpe
      rw [ih _ true hnext, h1]

/-- A session object for the counterexample states. -/
def sess0 : Session := mkSession 0 "slack" (IChatProvider.slack "t")

/-- A manager with a registered (non-vsls) `slack` session but an **empty**
token store: reachable, e.g. by a second `signout` after a first one already
cleared the credentials while leaving the session registered. -/
def cx2 : Manager :=
  { isTokenInitialized := true,
    chatProviders := [("slack", sess0)],
    vslsContactProvider := none,
    store := { currentUsers := [], usersByProvider := [],
               channelsByProvider := [], lastChannelByProvider := [] },
    tokens := [], hasVsls := false, nextSid := 1 }

/-- **C2 counterexample.** On `cx2` the token store is empty, so `signout`
clears zero credentials — the token store is unchanged — yet the reset
notification fires, refuting "fires iff at least one credential was actually
cleared; when zero credentials are cleared the notification does not
fire". -/
theorem C2_counterexample :
    (signout cx2).1.tokens = cx2.tokens
    ∧ cx2.tokens = []
    ∧ (signout cx2).2 = true := by
  refine ⟨?_, rfl, ?_⟩ <;> rfl

/-- **C2 (amended).** `signout` clears the stored credential of every
registered provider except `"vsls"` (leaving all other credentials
untouched) and fires the global reset notification exactly once if and only
if at least one non-vsls provider is **registered** — i.e. at least one
`clearToken` call was made — even if that provider had no stored credential;
with no registered non-vsls provider it does not fire. -/
theorem C2_signout_amended (s : Manager) :
    ((signout s).2 = true ↔ ∃ e ∈ s.chatProviders, e.1 ≠ "vsls")
    ∧ (∀ p, p ≠ "vsls" → p ∈ s.chatProviders.map Prod.fst →
        getToken (signout s).1.tokens p = none)
    ∧ (∀ p, p = "vsls" ∨ p ∉ s.chatProviders.map Prod.fst →
        getToken (signout s).1.tokens p = getToken s.tokens p) := by
  have h1 : (signout s).1.tokens
      = (s.chatProviders.foldl signoutStep (s.tokens, false)).1 := rfl
  have h2 : (signout s).2
      = (s.chatProviders.foldl signoutStep (s.tokens, false)).2 := rfl
  refine ⟨?_, ?_, ?_⟩
  · rw [h2, signoutFold_fired]
    simp
  · intro p hp hmem
    rw [h1]
    exact signoutFold_clears p hp s.chatProviders s.tokens false hmem
  · intro p h
    rw [h1]
    exact signoutFold_frame p s.chatProviders s.tokens false h

/-! ## Claim C6: `getChannelLabels` -/

theorem labelStep_pos {provider : Option String} {e : String × Session}
    (acc : List String)
    (h : (jsFalsyString provider || provider == some e.1) = true) :
    labelStep provider acc e = acc ++ e.2.channelLabels := by
  unfold labelStep
  rw [if_pos h]

theorem labelStep_neg {provider : Option String} {e : String × Session}
    (acc : List String)
    (h : (jsFalsyString provider || provider == some e.1) = false) :
    labelStep provider acc e = acc := by
  unfold labelStep
  rw [if_neg (by rw [h]; exact Bool.false_ne_true)]

theorem labelFold_acc (provider : Option String)
    (l : List (String × Session)) :
    ∀ acc : List String,
      l.foldl (labelStep provider) acc
        = acc ++ l.foldl (labelStep provider) [] := by
  induction l with
  | nil => intro acc; simp
  | cons e t ih =>
    intro acc
    by_cases hc : (jsFalsyString provider || provider == some e.1) = true
    · rw [List.foldl_cons, List.foldl_cons, labelStep_pos acc hc,
        labelStep_pos [] hc, List.nil_append, ih (acc ++ e.2.channelLabels),
        ih e.2.channelLabels, List.append_assoc]
    · rw [List.foldl_cons, List.foldl_cons, labelStep_neg acc (by simpa using hc),
        labelStep_neg [] (by simpa using hc)]
      exact ih acc

theorem labelFold_none (l : List (String × Session)) :
    l.foldl (labelStep none) []
      = (l.map (fun e => e.2.channelLabels)).flatten := by
  induction l with
  | nil => rfl
  | cons e t ih =>
    rw [List.foldl_cons, labelStep_pos [] (by rfl), List.nil_append,
      labelFold_acc, ih, List.map_cons, List.flatten_cons]

theorem labelFold_not_mem (p : String) (hp : p ≠ "")
    (l : List (String × Session)) (h : p ∉ l.map Prod.fst) :
    l.foldl (labelStep (some p)) [] = [] := by
  induction l with
  | nil => rfl
  | cons e t ih =>
    have hpe : p ≠ e.1 := fun hh => h (by
      rw [List.map_cons, hh]
      exact List.mem_cons_self _ _)
    have hc : (jsFalsyString (some p) || some p == some e.1) = false := by
      simp [jsFalsyString, hp, hpe]
    rw [List.foldl_cons, labelStep_neg [] hc]
    exact ih (fun hm => h (by
      rw [List.map_cons]
      exact List.mem_cons_of_mem _ hm))

theorem labelFold_some (p : String) (hp : p ≠ "")
    (l : List (String × Session)) (hnd : (l.map Prod.fst).Nodup) :
    l.foldl (labelStep (some p)) []
      = ((mget l p).map (fun cp => cp.channelLabels)).getD [] := by
  induction l with
  | nil => rfl
  | cons e t ih =>
    rw [List.map_cons, List.nodup_cons] at hnd
    by_cases hpe : (e.1 == p) = true
    · have hep : e.1 = p := by simpa using hpe
      have hc : (jsFalsyString (some p) || some p == some e.1) = true := by
        simp [jsFalsyString, hep]
      rw [List.foldl_cons, labelStep_pos [] hc, List.nil_append,
        labelFold_acc, labelFold_not_mem p hp t (hep ▸ hnd.1),
        List.append_nil, mget_cons_pos _ hpe]
      rfl
    · have hpef : (e.1 == p) = false := by simpa using hpe
      have hne : p ≠ e.1 := fun hh =>
        (by simpa using hpe : ¬e.1 = p) hh.symm
      have hc : (jsFalsyString (some p) || some p == some e.1) = false := by
        simp [jsFalsyString, hp, hne]
      rw [List.foldl_cons, labelStep_neg [] hc, mget_cons_neg _ hpef]
      exact ih hnd.2

/-- A session whose channel-label cache is non-empty. -/
def sessA : Session :=
  { sid := 2, provider := "slack", chatProvider := IChatProvider.slack "t",
    channelLabels := ["#general"], teams := [], users := [], channels := [],
    presences := [] }

/-- A manager with exactly one registered session, `slack`, holding one
channel label. -/
def cx6 : Manager :=
  { isTokenInitialized := true,
    chatProviders := [("slack", sessA)],
    vslsContactProvider := none,
    store := { currentUsers := [], usersByProvider := [],
               channelsByProvider := [], lastChannelByProvider := [] },
    tokens := [], hasVsls := false, nextSid := 3 }

/-- **C6 counterexample.** The empty-string provider id has no registered
session, so by the claim `getChannelLabels cx6 (some "")` should be `[]`;
instead JavaScript falsiness of `""` (`!provider`) makes the call behave
like the no-argument case and return every session's labels. -/
theorem C6_counterexample :
    mget cx6.chatProviders "" = none
    ∧ getChannelLabels cx6 (some "") = ["#general"] := ⟨rfl, rfl⟩

/-- **C6 (amended).** `getChannelLabels(undefined)` returns the
concatenation, in session-registration order, of each registered session's
own channel labels (not sorted), and `getChannelLabels(p)` for every
**non-empty** provider id `p` returns exactly the labels of session `p`
(empty if `p` has no session); the empty-string id is treated as absent by
JavaScript truthiness and aggregates all sessions. -/
theorem C6_getChannelLabels (s : Manager) :
    getChannelLabels s none
      = (s.chatProviders.map (fun e => e.2.channelLabels)).flatten
    ∧ (∀ p, p ≠ "" → (s.chatProviders.map Prod.fst).Nodup →
        getChannelLabels s (some p)
          = ((mget s.chatProviders p).map
              (fun cp => cp.channelLabels)).getD []) :=
  ⟨labelFold_none _, fun p hp hnd => labelFold_some p hp _ hnd⟩

/-- **C6 witness.** On `cx6`, the aggregate call returns the single
session's labels, and the per-provider call for `"slack"` returns exactly
that session's labels. -/
theorem C6_witness :
    getChannelLabels cx6 none = ["#general"]
    ∧ ("slack" : String) ≠ ""
    ∧ (cx6.chatProviders.map Prod.fst).Nodup
    ∧ getChannelLabels cx6 (some "slack")
        = ((mget cx6.chatProviders "slack").map
            (fun cp => cp.channelLabels)).getD [] :=
  ⟨(C6_getChannelLabels cx6).1.trans rfl, by decide, by decide,
   (C6_getChannelLabels cx6).2 "slack" (by decide) (by decide)⟩

/-- A manager with a `slack` session, a `vsls` session, and stored
credentials for `slack`, `discord` and `vsls`. -/
def w2 : Manager :=
  { isTokenInitialized := true,
    chatProviders := [("slack", sess0), ("vsls", mkSession 1 "vsls" IChatProvider.vsls)],
    vslsContactProvider := none,
    store := { currentUsers := [], usersByProvider := [],
               channelsByProvider := [], lastChannelByProvider := [] },
    tokens := [("slack", "xoxp"), ("discord", "dt"), ("vsls", "vt")],
    hasVsls := true, nextSid := 2 }

/-- **C2 witness.** On `w2`, `signout` fires (a non-vsls session is
registered), the registered `slack` credential is cleared, and the
unregistered `discord` and the vsls credentials survive. -/
theorem C2_witness :
    (signout w2).2 = true
    ∧ getToken (signout w2).1.tokens "slack" = none
    ∧ getToken (signout w2).1.tokens "discord" = getToken w2.tokens "discord"
    ∧ getToken (signout w2).1.tokens "vsls" = getToken w2.tokens "vsls" :=
  ⟨(C2_signout_amended w2).1.mpr ⟨("slack", sess0), by decide, by decide⟩,
   (C2_signout_amended w2).2.1 "slack" (by decide) (by decide),
   (C2_signout_amended w2).2.2 "discord" (Or.inr (by decide)),
   (C2_signout_amended w2).2.2 "vsls" (Or.inl rfl)⟩

/-! ## Claim C3: `clearAll` -/

theorem mdel_of_mget_none {α : Type} {m : List (String × α)} {k : String}
    (h : mget m k = none) : mdel m k = m := by
  unfold mdel
  apply List.filter_eq_self.mpr
  intro e he
  have h1 := (mget_eq_none_iff m k).mp h e he
  simpa using h1

theorem mem_keys_of_mget_some {α : Type} {m : List (String × α)} {p : String}
    {v : α} (h : mget m p = some v) : p ∈ m.map Prod.fst := by
  unfold mget at h
  cases hf : m.find? (fun e => e.1 == p) with
  | none => rw [hf] at h; cases h
  | some e =>
    have he := List.mem_of_find?_eq_some hf
    have hp : e.1 = p := by simpa using List.find?_some hf
    exact hp ▸ List.mem_map_of_mem Prod.fst he

theorem mget_of_mem_nodup {α : Type} {m : List (String × α)}
    (hnd : (m.map Prod.fst).Nodup) {e : String × α} (he : e ∈ m) :
    mget m e.1 = some e.2 := by
  induction m with
  | nil => cases he
  | cons f t ih =>
    rw [List.map_cons, List.nodup_cons] at hnd
    rcases List.mem_cons.mp he with h | h
    · rw [h, mget_cons_pos _ (by simp)]
    · have hne : f.1 ≠ e.1 := fun hh =>
        hnd.1 (hh ▸ List.mem_map_of_mem Prod.fst h)
      rw [mget_cons_neg _ (beq_eq_false_iff_ne.mpr hne)]
      exact ih hnd.2 h

theorem clearAllStep_vsls (a : Manager × List Nat) :
    clearAllStep a "vsls" = a := by
  unfold clearAllStep
  rw [if_pos rfl]

theorem clearAllStep_parts (a : Manager × List Nat) {q : String}
    (hq : ¬q = "vsls") :
    (clearAllStep a q).1.chatProviders = mdel a.1.chatProviders q
    ∧ (clearAllStep a q).1.store = a.1.store.clearProviderState q
    ∧ (clearAllStep a q).1.isTokenInitialized = a.1.isTokenInitialized := by
  unfold clearAllStep
  rw [if_neg hq]
  cases hm : mget a.1.chatProviders q with
  | none => exact ⟨(mdel_of_mget_none hm).symm, rfl, rfl⟩
  | some cp => exact ⟨rfl, rfl, rfl⟩

theorem clearAllStep_log_sub (a : Manager × List Nat) (q : String) {x : Nat}
    (hx : x ∈ a.2) : x ∈ (clearAllStep a q).2 := by
  unfold clearAllStep
  by_cases hq : q = "vsls"
  · rw [if_pos hq]
    exact hx
  · rw [if_neg hq]
    cases hm : mget a.1.chatProviders q with
    | none => exact hx
    | some cp => exact List.mem_append_left _ hx

theorem clearAllStep_destroys (a : Manager × List Nat) {q : String}
    (hq : ¬q = "vsls") {sess : Session}
    (hm : mget a.1.chatProviders q = some sess) :
    sess.sid ∈ (clearAllStep a q).2 := by
  unfold clearAllStep
  rw [if_neg hq, hm]
  simp

theorem clearAllFold_log_mono (ks : List String) :
    ∀ (a : Manager × List Nat) (x : Nat), x ∈ a.2 →
      x ∈ (ks.foldl clearAllStep a).2 := by
  induction ks with
  | nil => intro a x hx; exact hx
  | cons q t ih =>
    intro a x hx
    rw [List.foldl_cons]
    exact ih _ x (clearAllStep_log_sub a q hx)

theorem clearAllFold_removes (ks : List String) :
    ∀ (a : Manager × List Nat) (p : String), p ≠ "vsls" →
      (p ∈ ks ∨ mget a.1.chatProviders p = none) →
      mget (ks.foldl clearAllStep a).1.chatProviders p = none := by
  induction ks with
  | nil =>
    intro a p hp h
    rcases h with h | h
    · cases h
    · exact h
  | cons q t ih =>
    intro a p hp h
    rw [List.foldl_cons]
    by_cases hq : q = "vsls"
    · rw [hq, clearAllStep_vsls]
      refine ih a p hp ?_
      rcases h with h | h
      · rcases List.mem_cons.mp h with h1 | h1
        · exact absurd (h1.trans hq) hp
        · exact Or.inl h1
      · exact Or.inr h
    · have hreg := (clearAllStep_parts a hq).1
      by_cases hpq : p = q
      · refine ih _ p hp (Or.inr ?_)
        rw [hreg, hpq]
        exact mget_mdel_self _ q
      · refine ih _ p hp ?_
        rcases h with h | h
        · rcases List.mem_cons.mp h with h1 | h1
          · exact absurd h1 hpq
          · exact Or.inl h1
        · refine Or.inr ?_
          rw [hreg, mget_mdel_ne _ hpq]
          exact h

theorem clearAllFold_vsls (ks : List String) :
    ∀ (a : Manager × List Nat),
      mget (ks.foldl clearAllStep a).1.chatProviders "vsls"
        = mget a.1.chatProviders "vsls" := by
  induction ks with
  | nil => intro a; rfl
  | cons q t ih =>
    intro a
    rw [List.foldl_cons]
    by_cases hq : q = "vsls"
    · rw [hq, clearAllStep_vsls]
      exact ih a
    · rw [ih _, (clearAllStep_parts a hq).1,
        mget_mdel_ne _ (fun hh => hq hh.symm)]

theorem clearAllFold_destroys (ks : List String) :
    ∀ (a : Manager × List Nat) (p : String) (sess : Session),
      p ∈ ks → p ≠ "vsls" → mget a.1.chatProviders p = some sess →
      sess.sid ∈ (ks.foldl clearAllStep a).2 := by
  induction ks with
  | nil => intro a p sess h; cases h
  | cons q t ih =>
    intro a p sess hmem hp hm
    rw [List.foldl_cons]
    by_cases hpq : p = q
    · refine clearAllFold_log_mono t _ sess.sid ?_
      exact clearAllStep_destroys a (hpq ▸ hp) (hpq ▸ hm)
    · have hmem' : p ∈ t := by
        rcases List.mem_cons.mp hmem with h | h
        · exact absurd h hpq
        · exact h
      by_cases hq : q = "vsls"
      · rw [hq, clearAllStep_vsls]
        exact ih a p sess hmem' hp hm
      · refine ih _ p sess hmem' hp ?_
        rw [(clearAllStep_parts a hq).1, mget_mdel_ne _ hpq]
        exact hm

/-- All four per-provider components of the persistent store are absent for
a provider. -/
def storeAbsent (st : Store) (p : String) : Prop :=
  st.getCurrentUser p = none
  ∧ mget st.usersByProvider p = none
  ∧ mget st.channelsByProvider p = none
  ∧ mget st.lastChannelByProvider p = none

theorem storeAbsent_clear_self (st : Store) (p : String) :
    storeAbsent (st.clearProviderState p) p := by
  refine ⟨?_, mget_mdel_self _ p, mget_mdel_self _ p, mget_mdel_self _ p⟩
  unfold Store.clearProviderState Store.getCurrentUser
  rw [List.find?_eq_none]
  intro cu hcu
  have h2 := (List.mem_filter.mp hcu).2
  simpa using h2

theorem storeAbsent_clear_mono (st : Store) (p q : String)
    (h : storeAbsent st p) : storeAbsent (st.clearProviderState q) p := by
  obtain ⟨h1, h2, h3, h4⟩ := h
  refine ⟨?_, mget_mdel_none _ h2, mget_mdel_none _ h3, mget_mdel_none _ h4⟩
  unfold Store.clearProviderState Store.getCurrentUser
  unfold Store.getCurrentUser at h1
  rw [List.find?_eq_none] at h1 ⊢
  intro cu hcu
  exact h1 cu (List.mem_filter.mp hcu).1

theorem clearAllFold_store (ks : List String) :
    ∀ (a : Manager × List Nat) (p : String), p ≠ "vsls" →
      (p ∈ ks ∨ storeAbsent a.1.store p) →
      storeAbsent (ks.foldl clearAllStep a).1.store p := by
  induction ks with
  | nil =>
    intro a p hp h
    rcases h with h | h
    · cases h
    · exact h
  | cons q t ih =>
    intro a p hp h
    rw [List.foldl_cons]
    by_cases hq : q = "vsls"
    · rw [hq, clearAllStep_vsls]
      refine ih a p hp ?_
      rcases h with h | h
      · rcases List.mem_cons.mp h with h1 | h1
        · exact absurd (h1.trans hq) hp
        · exact Or.inl h1
      · exact Or.inr h
    · have hstore := (clearAllStep_parts a hq).2.1
      by_cases hpq : p = q
      · refine ih _ p hp (Or.inr ?_)
        rw [hstore, hpq]
        exact storeAbsent_clear_self _ q
      · rcases h with h | h
        · rcases List.mem_cons.mp h with h1 | h1
          · exact absurd h1 hpq
          · exact ih _ p hp (Or.inl h1)
        · refine ih _ p hp (Or.inr ?_)
          rw [hstore]
          exact storeAbsent_clear_mono _ p q h

/-- **C3.** After `clearAll()` on any registry state: every non-vsls
provider has no session in the registry; the vsls session, if one existed,
is still present as exactly the same object; `isTokenInitialized` is false;
every non-vsls session that was registered had `destroy()` called on it; and
every non-vsls registered provider's persisted store state is cleared. -/
theorem C3_clearAll (s : Manager) :
    (∀ p, p ≠ "vsls" → mget (clearAll s).1.chatProviders p = none)
    ∧ mget (clearAll s).1.chatProviders "vsls" = mget s.chatProviders "vsls"
    ∧ (clearAll s).1.isTokenInitialized = false
    ∧ ((s.chatProviders.map Prod.fst).Nodup →
        ∀ e ∈ s.chatProviders, e.1 ≠ "vsls" → e.2.sid ∈ (clearAll s).2)
    ∧ (∀ p, p ∈ s.chatProviders.map Prod.fst → p ≠ "vsls" →
        storeAbsent (clearAll s).1.store p) := by
  have hreg : (clearAll s).1.chatProviders
      = ((s.chatProviders.map Prod.fst).foldl clearAllStep
          (s, [])).1.chatProviders := rfl
  have hstore : (clearAll s).1.store
      = ((s.chatProviders.map Prod.fst).foldl clearAllStep (s, [])).1.store :=
    rfl
  have hlog : (clearAll s).2
      = ((s.chatProviders.map Prod.fst).foldl clearAllStep (s, [])).2 := rfl
  refine ⟨?_, ?_, rfl, ?_, ?_⟩
  · intro p hp
    rw [hreg]
    refine clearAllFold_removes _ (s, []) p hp ?_
    cases hm : mget s.chatProviders p with
    | none => exact Or.inr rfl
    | some v => exact Or.inl (mem_keys_of_mget_some hm)
  · rw [hreg]
    exact clearAllFold_vsls _ (s, [])
  · intro hnd e he hev
    rw [hlog]
    exact clearAllFold_destroys _ (s, []) e.1 e.2
      (List.mem_map_of_mem Prod.fst he) hev (mget_of_mem_nodup hnd he)
  · intro p hmem hp
    rw [hstore]
    exact clearAllFold_store _ (s, []) p hp (Or.inl hmem)

/-- A manager with a `slack` session, a `vsls` session and persisted store
state for both. -/
def w3 : Manager :=
  { isTokenInitialized := true,
    chatProviders := [("slack", sess0), ("vsls", mkSession 7 "vsls" IChatProvider.vsls)],
    vslsContactProvider := none,
    store := { currentUsers := [{ id := "u1", currentTeamId := none,
                                  provider := "slack" }],
               usersByProvider := [("slack", [("u1", { id := "u1", name := "alice" })])],
               channelsByProvider := [("slack", [{ id := "c1", name := "general" }])],
               lastChannelByProvider := [("slack", some "c1")] },
    tokens := [("slack", "xoxp")], hasVsls := true, nextSid := 8 }

/-- **C3 witness.** On `w3`, `clearAll` removes the `slack` session, keeps
the `vsls` session object, destroys session `0`, and clears `slack`'s store
state. -/
theorem C3_witness :
    mget (clearAll w3).1.chatProviders "slack" = none
    ∧ mget (clearAll w3).1.chatProviders "vsls"
        = mget w3.chatProviders "vsls"
    ∧ (clearAll w3).1.isTokenInitialized = false
    ∧ sess0.sid ∈ (clearAll w3).2
    ∧ storeAbsent (clearAll w3).1.store "slack" :=
  ⟨(C3_clearAll w3).1 "slack" (by decide),
   (C3_clearAll w3).2.1,
   (C3_clearAll w3).2.2.1,
   (C3_clearAll w3).2.2.2.1 (by decide) ("slack", sess0) (by decide)
     (by decide),
   (C3_clearAll w3).2.2.2.2 "slack" (by decide) (by decide)⟩

/-! ## Claim C9: `initializeVslsContactProvider` -/

theorem getCurrentUser_of_mem (st : Store) {p : String}
    (h : p ∈ st.currentUsers.map (fun cu => cu.provider)) :
    ∃ cu, st.getCurrentUser p = some cu := by
  unfold Store.getCurrentUser
  cases hf : st.currentUsers.find? (fun cu => cu.provider == p) with
  | some cu => exact ⟨cu, rfl⟩
  | none =>
    rw [List.find?_eq_none] at hf
    obtain ⟨cu, hcu, rfl⟩ := List.mem_map.mp h
    exact absurd (by simp) (hf cu hcu)

theorem enabled_nonvsls_has_user (s : Manager) {p : String}
    (hp : p ∈ (getEnabledProviders s).filter (fun q => !(q == "vsls"))) :
    ∃ cu, s.store.getCurrentUser p = some cu := by
  have h1 := List.mem_filter.mp hp
  have hpv : p ≠ "vsls" := by simpa using h1.2
  have h2 := (mem_jsDedup _ p).mp h1.1
  rcases List.mem_append.mp h2 with h3 | h3
  · exact getCurrentUser_of_mem s.store
      (by simpa [Store.getCurrentUserForAll] using h3)
  · exfalso
    by_cases hv : s.hasVsls
    · rw [if_pos hv] at h3
      exact hpv (by simpa using h3)
    · rw [if_neg hv] at h3
      cases h3

/-- **C9.** When the presence extension is available, at least one non-vsls
provider is enabled, and no initialized bridge exists yet, the presence
bridge binds to exactly the **first** enabled non-vsls provider in
enabled-provider iteration order, announcing that provider's current user;
and re-binding is idempotent: with an already-initialized bridge a second
activation attempt changes nothing and makes no announcements. -/
theorem C9_vsls_bridge (s : Manager) :
    (∀ p rest,
      (getEnabledProviders s).filter (fun q => !(q == "vsls")) = p :: rest →
      s.hasVsls = true →
      bridgeNotInit s.vslsContactProvider = true →
      (initializeVslsContactProvider s).1.vslsContactProvider
          = some (Bridge.mk p true)
        ∧ ∃ cu, s.store.getCurrentUser p = some cu
            ∧ (initializeVslsContactProvider s).2
                = [Announcement.selfContact cu.id,
                   Announcement.availableUsers cu.id])
    ∧ (∀ b, s.vslsContactProvider = some b → b.isInitialized = true →
        initializeVslsContactProvider s = (s, [])) := by
  constructor
  · intro p rest hfil hv hni
    obtain ⟨cu, hcu⟩ := enabled_nonvsls_has_user s
      (hfil ▸ List.mem_cons_self p rest)
    refine ⟨?_, cu, hcu, ?_⟩ <;>
      simp [initializeVslsContactProvider, hfil, hv, hcu, hni]
  · intro b hb hbi
    unfold initializeVslsContactProvider
    cases hfil : (getEnabledProviders s).filter (fun q => !(q == "vsls")) with
    | nil => rfl
    | cons p rest =>
      cases hsv : s.hasVsls with
      | false => rfl
      | true =>
        cases hcu : s.store.getCurrentUser p with
        | none => simp [hcu]
        | some cu =>
          have hbn : bridgeNotInit s.vslsContactProvider = false := by
            rw [hb]
            simp [bridgeNotInit, hbi]
          simp [hcu, hbn]

/-- A manager with an enabled `slack` current user, the vsls extension
present, and no bridge yet. -/
def w9 : Manager :=
  { isTokenInitialized := false,
    chatProviders := [],
    vslsContactProvider := none,
    store := { currentUsers := [{ id := "u1", currentTeamId := none,
                                  provider := "slack" }],
               usersByProvider := [], channelsByProvider := [],
               lastChannelByProvider := [] },
    tokens := [], hasVsls := true, nextSid := 0 }

/-- The same manager after the bridge has been initialized. -/
def w9b : Manager :=
  { w9 with vslsContactProvider := some (Bridge.mk "slack" true) }

/-- **C9 witness.** On `w9` the bridge binds to `"slack"`, the first enabled
non-vsls provider; on `w9b`, which already holds an initialized bridge, a
second activation is a no-op. -/
theorem C9_witness :
    (initializeVslsContactProvider w9).1.vslsContactProvider
        = some (Bridge.mk "slack" true)
    ∧ initializeVslsContactProvider w9b = (w9b, []) :=
  ⟨((C9_vsls_bridge w9).1 "slack" [] (by decide) rfl rfl).1,
   (C9_vsls_bridge w9b).2 (Bridge.mk "slack" true) rfl rfl⟩

/-! ## Claim C1: `initializeToken` -/

theorem initFold_cons_skip {p : String} (hp : p = "") (rest : List String)
    (s : Manager) : initFold (p :: rest) s = initFold rest s := by
  simp only [initFold]
  rw [if_pos hp]

theorem initFold_cons_notoken {p : String} (hp : ¬p = "") {s : Manager}
    (ht : getToken s.tokens p = none) (rest : List String) :
    initFold (p :: rest) s = initFold rest s := by
  simp only [initFold, ht]
  rw [if_neg hp]

theorem initFold_cons_existing {p : String} (hp : ¬p = "") {s : Manager}
    {tok : String} {sess : Session}
    (ht : getToken s.tokens p = some tok)
    (hm : mget s.chatProviders p = some sess) (rest : List String) :
    initFold (p :: rest) s
      = initFold rest { s with isTokenInitialized := true } := by
  simp only [initFold, ht, hm]
  rw [if_neg hp]

theorem initFold_cons_err {p : String} (hp : ¬p = "") {s : Manager}
    {tok e : String}
    (ht : getToken s.tokens p = some tok)
    (hm : mget s.chatProviders p = none)
    (hi : instantiateChatProvider tok p = Except.error e)
    (rest : List String) :
    initFold (p :: rest) s = (s, some e) := by
  simp only [initFold, ht, hm, hi]
  rw [if_neg hp]

theorem initFold_cons_new {p : String} (hp : ¬p = "") {s : Manager}
    {tok : String} {cp : IChatProvider}
    (ht : getToken s.tokens p = some tok)
    (hm : mget s.chatProviders p = none)
    (hi : instantiateChatProvider tok p = Except.ok cp)
    (rest : List String) :
    initFold (p :: rest) s
      = initFold rest
          { s with
            chatProviders := mset s.chatProviders p (mkSession s.nextSid p cp),
            nextSid := s.nextSid + 1,
            isTokenInitialized := true } := by
  simp only [initFold, ht, hm, hi]
  rw [if_neg hp]

theorem initFold_frame (l : List String) :
    ∀ s : Manager,
      (initFold l s).1.tokens = s.tokens
      ∧ (initFold l s).1.store = s.store
      ∧ (initFold l s).1.hasVsls = s.hasVsls := by
  induction l with
  | nil => intro s; exact ⟨rfl, rfl, rfl⟩
  | cons p rest ih =>
    intro s
    by_cases hp : p = ""
    · rw [initFold_cons_skip hp]
      exact ih s
    · cases ht : getToken s.tokens p with
      | none =>
        rw [initFold_cons_notoken hp ht]
        exact ih s
      | some tok =>
        cases hm : mget s.chatProviders p with
        | some sess =>
          rw [initFold_cons_existing hp ht hm]
          exact ih _
        | none =>
          cases hi : instantiateChatProvider tok p with
          | error e =>
            rw [initFold_cons_err hp ht hm hi]
            exact ⟨rfl, rfl, rfl⟩
          | ok cp =>
            rw [initFold_cons_new hp ht hm hi]
            exact ih _

theorem initFold_flag (l : List String) :
    ∀ s : Manager, s.isTokenInitialized = true →
      (initFold l s).1.isTokenInitialized = true := by
  induction l with
  | nil => intro s h; exact h
  | cons p rest ih =>
    intro s h
    by_cases hp : p = ""
    · rw [initFold_cons_skip hp]
      exact ih s h
    · cases ht : getToken s.tokens p with
      | none =>
        rw [initFold_cons_notoken hp ht]
        exact ih s h
      | some tok =>
        cases hm : mget s.chatProviders p with
        | some sess =>
          rw [initFold_cons_existing hp ht hm]
          exact ih _ rfl
        | none =>
          cases hi : instantiateChatProvider tok p with
          | error e =>
            rw [initFold_cons_err hp ht hm hi]
            exact h
          | ok cp =>
            rw [initFold_cons_new hp ht hm hi]
            exact ih _ rfl

theorem initFold_mono (l : List String) :
    ∀ (s : Manager) (q : String) (sess : Session),
      mget s.chatProviders q = some sess →
      mget (initFold l s).1.chatProviders q = some sess := by
  induction l with
  | nil => intro s q sess h; exact h
  | cons p rest ih =>
    intro s q sess h
    by_cases hp : p = ""
    · rw [initFold_cons_skip hp]
      exact ih s q sess h
    · cases ht : getToken s.tokens p with
      | none =>
        rw [initFold_cons_notoken hp ht]
        exact ih s q sess h
      | some tok =>
        cases hm : mget s.chatProviders p with
        | some sess' =>
          rw [initFold_cons_existing hp ht hm]
          exact ih _ q sess h
        | none =>
          cases hi : instantiateChatProvider tok p with
          | error e =>
            rw [initFold_cons_err hp ht hm hi]
            exact h
          | ok cp =>
            rw [initFold_cons_new hp ht hm hi]
            have hqp : q ≠ p := by
              intro hh
              rw [hh, hm] at h
              cases h
            refine ih _ q sess ?_
            show mget (mset s.chatProviders p (mkSession s.nextSid p cp)) q
              = some sess
            rw [mget_mset_ne _ _ hqp]
            exact h

theorem initFold_nodup (l : List String) :
    ∀ s : Manager, (s.chatProviders.map Prod.fst).Nodup →
      ((initFold l s).1.chatProviders.map Prod.fst).Nodup := by
  induction l with
  | nil => intro s h; exact h
  | cons p rest ih =>
    intro s h
    by_cases hp : p = ""
    · rw [initFold_cons_skip hp]
      exact ih s h
    · cases ht : getToken s.tokens p with
      | none =>
        rw [initFold_cons_notoken hp ht]
        exact ih s h
      | some tok =>
        cases hm : mget s.chatProviders p with
        | some sess =>
          rw [initFold_cons_existing hp ht hm]
          exact ih _ h
        | none =>
          cases hi : instantiateChatProvider tok p with
          | error e =>
            rw [initFold_cons_err hp ht hm hi]
            exact h
          | ok cp =>
            rw [initFold_cons_new hp ht hm hi]
            refine ih _ ?_
            show ((mset s.chatProviders p
              (mkSession s.nextSid p cp)).map Prod.fst).Nodup
            rw [keys_mset_of_mget_none hm]
            refine List.nodup_append.mpr ⟨h, List.nodup_singleton p, ?_⟩
            intro a ha hb
            rw [List.mem_singleton] at hb
            exact not_mem_keys_of_mget_none hm (hb ▸ ha)

theorem setFlag_eta (s : Manager) (h : s.isTokenInitialized = true) :
    { s with isTokenInitialized := true } = s := by
  cases s
  simp_all

theorem initFold_idem (l : List String) :
    ∀ s : Manager, initFold l (initFold l s).1 = initFold l s := by
  induction l with
  | nil => intro s; rfl
  | cons p rest ih =>
    intro s
    by_cases hp : p = ""
    · rw [initFold_cons_skip hp, initFold_cons_skip hp]
      exact ih s
    · cases ht : getToken s.tokens p with
      | none =>
        rw [initFold_cons_notoken hp ht]
        have ht2 : getToken (initFold rest s).1.tokens p = none := by
          rw [(initFold_frame rest s).1]
          exact ht
        rw [initFold_cons_notoken hp ht2]
        exact ih s
      | some tok =>
        cases hm : mget s.chatProviders p with
        | some sess =>
          rw [initFold_cons_existing hp ht hm]
          have hflag : (initFold rest
              { s with isTokenInitialized := true }).1.isTokenInitialized
              = true :=
            initFold_flag rest _ rfl
          have ht2 : getToken (initFold rest
              { s with isTokenInitialized := true }).1.tokens p = some tok := by
            rw [(initFold_frame rest _).1]
            exact ht
          have hm2 : mget (initFold rest
              { s with isTokenInitialized := true }).1.chatProviders p
              = some sess :=
            initFold_mono rest _ p sess hm
          rw [initFold_cons_existing hp ht2 hm2, setFlag_eta _ hflag]
          exact ih _
        | none =>
          cases hi : instantiateChatProvider tok p with
          | error e =>
            rw [initFold_cons_err hp ht hm hi]
            exact initFold_cons_err hp ht hm hi rest
          | ok cp =>
            rw [initFold_cons_new hp ht hm hi]
            have hflag : (initFold rest
                { s with
                  chatProviders :=
                    mset s.chatProviders p (mkSession s.nextSid p cp),
                  nextSid := s.nextSid + 1,
                  isTokenInitialized := true }).1.isTokenInitialized = true :=
              initFold_flag rest _ rfl
            have ht2 : getToken (initFold rest
                { s with
                  chatProviders :=
                    mset s.chatProviders p (mkSession s.nextSid p cp),
                  nextSid := s.nextSid + 1,
                  isTokenInitialized := true }).1.tokens p = some tok := by
              rw [(initFold_frame rest _).1]
              exact ht
            have hm2 : mget (initFold rest
                { s with
                  chatProviders :=
                    mset s.chatProviders p (mkSession s.nextSid p cp),
                  nextSid := s.nextSid + 1,
                  isTokenInitialized := true }).1.chatProviders p
                = some (mkSession s.nextSid p cp) :=
              initFold_mono rest _ p _ (mget_mset_self _ p _)
            rw [initFold_cons_existing hp ht2 hm2, setFlag_eta _ hflag]
            exact ih _

/-- **C1.** `initializeToken` is idempotent and incremental: running it a
second time on the result (same stored credentials, same `newProvider`)
changes nothing — so at most one session is created per provider, and the
registry keys stay duplicate-free — and every provider that already holds a
session keeps exactly that session object, including when that provider id
is also passed as `newProvider`. -/
theorem C1_initializeToken_idempotent (s : Manager) (np : Option String) :
    initializeToken (initializeToken s np).1 np = initializeToken s np
    ∧ (∀ p sess, mget s.chatProviders p = some sess →
        mget (initializeToken s np).1.chatProviders p = some sess)
    ∧ ((s.chatProviders.map Prod.fst).Nodup →
        ((initializeToken s np).1.chatProviders.map Prod.fst).Nodup) := by
  refine ⟨?_, ?_, ?_⟩
  · show initFold
      (getEnabledProviders (initializeToken s np).1 ++ newProviderList np)
      (initializeToken s np).1 = initializeToken s np
    have henv : getEnabledProviders (initializeToken s np).1
        = getEnabledProviders s := by
      unfold initializeToken getEnabledProviders Store.getCurrentUserForAll
      rw [(initFold_frame _ s).2.1, (initFold_frame _ s).2.2]
    rw [henv]
    exact initFold_idem _ s
  · intro p sess h
    exact initFold_mono _ s p sess h
  · intro h
    exact initFold_nodup _ s h

/-- A manager with a live `slack` session, stored credentials for `slack`
and `discord`, and both providers enabled. -/
def w1 : Manager :=
  { isTokenInitialized := true,
    chatProviders := [("slack", sess0)],
    vslsContactProvider := none,
    store := { currentUsers := [{ id := "u1", currentTeamId := none,
                                  provider := "slack" },
                                { id := "u2", currentTeamId := none,
                                  provider := "discord" }],
               usersByProvider := [], channelsByProvider := [],
               lastChannelByProvider := [] },
    tokens := [("slack", "t1"), ("discord", "t2")],
    hasVsls := false, nextSid := 1 }

/-- **C1 witness.** On `w1`, with `"slack"` also passed as `newProvider`,
the pre-existing `slack` session object survives `initializeToken` and the
registry keys stay duplicate-free. -/
theorem C1_witness :
    mget w1.chatProviders "slack" = some sess0
    ∧ mget (initializeToken w1 (some "slack")).1.chatProviders "slack"
        = some sess0
    ∧ (w1.chatProviders.map Prod.fst).Nodup
    ∧ ((initializeToken w1 (some "slack")).1.chatProviders.map
        Prod.fst).Nodup :=
  ⟨rfl,
   (C1_initializeToken_idempotent w1 (some "slack")).2.1 "slack" sess0 rfl,
   by decide,
   (C1_initializeToken_idempotent w1 (some "slack")).2.2 (by decide)⟩
